import Mathlib

set_option maxHeartbeats 1000000

/-!
Verification development for the schema/object/plan subsystem of the
terraform-provider-testing repository and its vendored terraform-sdk core.

The Go source manipulates values of the external go-cty library
(`cty.Value` / `cty.Type`).  The first section models that library's data
model on the fragment the SDK code uses: types and values are nested
inductives, objects and maps are association lists keyed by strings, and
cty numbers are modelled as integers (none of the verified claims depend
on non-integer arithmetic).
-/

namespace TfSdk

theorem sizeOf_snd_lt_of_mem {α β : Type} [SizeOf α] [SizeOf β] {p : α × β}
    {l : List (α × β)} (h : p ∈ l) : sizeOf p.2 < sizeOf l := by
  have h1 := List.sizeOf_lt_of_mem h
  obtain ⟨a, b⟩ := p
  simp only [Prod.mk.sizeOf_spec] at h1
  show sizeOf b < sizeOf l
  omega

/-- Model of the external go-cty `cty.Type`.  `dynamic` is
`cty.DynamicPseudoType`, the "any type" marker. -/
inductive CtyType where
  | bool
  | number
  | string
  | dynamic
  | object (attrTypes : List (String × CtyType))
  | tuple (elemTypes : List CtyType)
  | list (elemType : CtyType)
  | set (elemType : CtyType)
  | map (elemType : CtyType)

/-- Model of the external go-cty `Type.HasDynamicTypes`: true if the type
is or contains `cty.DynamicPseudoType`. -/
def CtyType.hasDynamicTypes : CtyType → Bool
  | .dynamic => true
  | .object ats => ats.attach.any (fun p => p.1.2.hasDynamicTypes)
  | .tuple ets => ets.attach.any (fun p => p.1.hasDynamicTypes)
  | .list t => t.hasDynamicTypes
  | .set t => t.hasDynamicTypes
  | .map t => t.hasDynamicTypes
  | _ => false
decreasing_by
  all_goals simp_wf
  · have h := sizeOf_snd_lt_of_mem p.2; omega
  · have h := List.sizeOf_lt_of_mem p.2; omega

/-- Model of the external go-cty `Type.Equals` (structural type equality). -/
def CtyType.beq : CtyType → CtyType → Bool
  | .bool, .bool => true
  | .number, .number => true
  | .string, .string => true
  | .dynamic, .dynamic => true
  | .object a, .object b =>
      a.length == b.length &&
      (a.zip b).attach.all (fun p => p.1.1.1 == p.1.2.1 && p.1.1.2.beq p.1.2.2)
  | .tuple a, .tuple b =>
      a.length == b.length &&
      (a.zip b).attach.all (fun p => p.1.1.beq p.1.2)
  | .list a, .list b => a.beq b
  | .set a, .set b => a.beq b
  | .map a, .map b => a.beq b
  | _, _ => false
termination_by a _ => sizeOf a
decreasing_by
  all_goals simp_wf
  · obtain ⟨⟨⟨n1, t1⟩, p2⟩, hmem⟩ := p
    have h := sizeOf_snd_lt_of_mem (List.of_mem_zip hmem).1
    simp at h ⊢
    omega
  · obtain ⟨⟨t1, t2⟩, hmem⟩ := p
    have h := List.sizeOf_lt_of_mem (List.of_mem_zip hmem).1
    simp at h ⊢
    omega

def CtyType.isObjectType : CtyType → Bool
  | .object _ => true
  | _ => false

def CtyType.isListType : CtyType → Bool
  | .list _ => true
  | _ => false

def CtyType.isMapType : CtyType → Bool
  | .map _ => true
  | _ => false

/-- Element type of a list/set/map type (go-cty `Type.ElementType`). -/
def CtyType.elementType : CtyType → CtyType
  | .list t => t
  | .set t => t
  | .map t => t
  | _ => .dynamic

/-- Model of the external go-cty `cty.Value`.

A value is null, unknown (a typed "to be determined" placeholder), or a
known value.  Object and map values are association lists; go-cty's
string-keyed Go maps have unique keys, which theorems state as explicit
`Nodup` hypotheses where they matter.  Set values are modelled as their
list of elements in iteration order. -/
inductive Value where
  | null (ty : CtyType)
  | unknown (ty : CtyType)
  | bool (b : Bool)
  | number (n : Int)
  | str (s : String)
  | object (attrs : List (String × Value))
  | tuple (elems : List Value)
  | list (elemType : CtyType) (elems : List Value)
  | set (elemType : CtyType) (elems : List Value)
  | map (elemType : CtyType) (entries : List (String × Value))

/-- Model of go-cty `Value.Type`. -/
def Value.typeOf : Value → CtyType
  | .null ty => ty
  | .unknown ty => ty
  | .bool _ => .bool
  | .number _ => .number
  | .str _ => .string
  | .object attrs => .object (attrs.attach.map (fun p => (p.1.1, p.1.2.typeOf)))
  | .tuple elems => .tuple (elems.attach.map (fun p => p.1.typeOf))
  | .list ety _ => .list ety
  | .set ety _ => .set ety
  | .map ety _ => .map ety
decreasing_by
  all_goals simp_wf
  · have h := sizeOf_snd_lt_of_mem p.2; omega
  · have h := List.sizeOf_lt_of_mem p.2; omega

/-- Model of go-cty `Value.IsNull`. -/
def Value.isNull : Value → Bool
  | .null _ => true
  | _ => false

/-- Model of go-cty `Value.IsKnown`.  Only a whole-value unknown is
"not known"; aggregates with unknown elements are known at the top. -/
def Value.isKnown : Value → Bool
  | .unknown _ => false
  | _ => true

/-- Model of go-cty `Value.GetAttr` on object values.  The Go function
panics on non-objects and undeclared attributes; the model returns a
typed null there, and every theorem that relies on `getAttr` carries
hypotheses that keep it on the object/declared-attribute path. -/
def Value.getAttr (v : Value) (name : String) : Value :=
  match v with
  | .object attrs => (attrs.lookup name).getD (Value.null .dynamic)
  | _ => Value.null .dynamic

/-- Elements of a collection value, in iteration order (go-cty
`ElementIterator` values for lists, sets and tuples). -/
def Value.elems : Value → List Value
  | .list _ es => es
  | .set _ es => es
  | .tuple es => es
  | _ => []

/-- Key/value pairs of a map or object value, in iteration order (go-cty
`ElementIterator` pairs for maps and objects). -/
def Value.entries : Value → List (String × Value)
  | .map _ kvs => kvs
  | .object kvs => kvs
  | _ => []

/-- Model of go-cty `Value.LengthInt`; `none` models the Go panic on
values that are not collections. -/
def Value.lengthInt : Value → Option Nat
  | .list _ es => some es.length
  | .set _ es => some es.length
  | .tuple es => some es.length
  | .map _ kvs => some kvs.length
  | .object kvs => some kvs.length
  | _ => none

/-- True if the value is or contains an unknown placeholder anywhere. -/
def Value.containsUnknown : Value → Bool
  | .unknown _ => true
  | .object attrs => attrs.attach.any (fun p => p.1.2.containsUnknown)
  | .tuple elems => elems.attach.any (fun p => p.1.containsUnknown)
  | .list _ elems => elems.attach.any (fun p => p.1.containsUnknown)
  | .set _ elems => elems.attach.any (fun p => p.1.containsUnknown)
  | .map _ kvs => kvs.attach.any (fun p => p.1.2.containsUnknown)
  | _ => false
decreasing_by
  all_goals simp_wf
  all_goals first
    | (have h := sizeOf_snd_lt_of_mem p.2; omega)
    | (have h := List.sizeOf_lt_of_mem p.2; omega)

/-- True exactly for the known boolean value `true` (go-cty `Value.True`). -/
def Value.isTrueVal : Value → Bool
  | .bool true => true
  | _ => false

/-- True exactly for the known boolean value `false` (go-cty `Value.False`). -/
def Value.isFalseVal : Value → Bool
  | .bool false => true
  | _ => false

mutual

/-- Model of the external go-cty `Value.Equals`: structural equality that
returns a `cty.Bool` value, which is the unknown boolean whenever the
outcome cannot be decided yet.  Dynamic types and unequal types are
handled before null/unknown-ness, mirroring the library; collections are
compared by length and then elementwise, returning the unknown boolean as
soon as an element comparison is unknown.  Set values are compared by
their element lists in iteration order (the library compares them as
hash sets; the verified claims do not exercise set-typed attribute
comparisons). -/
def Value.Equals (a b : Value) : Value :=
  if a.typeOf.hasDynamicTypes || b.typeOf.hasDynamicTypes then .unknown .bool
  else if ¬ a.typeOf.beq b.typeOf then .bool false
  else if ¬ a.isKnown || ¬ b.isKnown then .unknown .bool
  else if a.isNull && b.isNull then .bool true
  else if a.isNull || b.isNull then .bool false
  else match a, b with
    | .bool x, .bool y => .bool (x == y)
    | .number x, .number y => .bool (x == y)
    | .str x, .str y => .bool (x == y)
    | .list _ xs, .list _ ys =>
        if xs.length ≠ ys.length then .bool false else equalsElems xs ys
    | .set _ xs, .set _ ys =>
        if xs.length ≠ ys.length then .bool false else equalsElems xs ys
    | .tuple xs, .tuple ys => equalsElems xs ys
    | .object xs, .object ys => equalsEntries xs ys
    | .map _ xs, .map _ ys =>
        if xs.length ≠ ys.length then .bool false else equalsEntries xs ys
    | _, _ => .bool false
termination_by sizeOf a
decreasing_by
  all_goals simp_wf

/-- Elementwise comparison used by `Value.Equals` for collections. -/
def equalsElems : List Value → List Value → Value
  | [], [] => .bool true
  | x :: xs, y :: ys =>
      let eq := x.Equals y
      if ¬ eq.isKnown then .unknown .bool
      else if eq.isFalseVal then .bool false
      else equalsElems xs ys
  | _, _ => .bool false
termination_by xs _ => sizeOf xs
decreasing_by
  all_goals simp_wf
  all_goals omega

/-- Pairwise comparison used by `Value.Equals` for objects and maps. -/
def equalsEntries : List (String × Value) → List (String × Value) → Value
  | [], [] => .bool true
  | (k1, x) :: xs, (k2, y) :: ys =>
      if k1 ≠ k2 then .bool false
      else
        let eq := x.Equals y
        if ¬ eq.isKnown then .unknown .bool
        else if eq.isFalseVal then .bool false
        else equalsEntries xs ys
  | _, _ => .bool false
termination_by xs _ => sizeOf xs
decreasing_by
  all_goals simp_wf
  all_goals omega

end

theorem any_attach_eq {α : Type} (l : List α) (f : α → Bool) :
    (l.attach.any fun p => f p.1) = l.any f := by
  rw [Bool.eq_iff_iff]
  simp only [List.any_eq_true, List.mem_attach, true_and, Subtype.exists]
  constructor
  · rintro ⟨x, hx, hfx⟩
    exact ⟨x, hx, hfx⟩
  · rintro ⟨x, hx, hfx⟩
    exact ⟨x, hx, hfx⟩

theorem containsUnknown_list (ety : CtyType) (es : List Value) :
    (Value.list ety es).containsUnknown = es.any Value.containsUnknown := by
  rw [Value.containsUnknown, any_attach_eq]

theorem containsUnknown_set (ety : CtyType) (es : List Value) :
    (Value.set ety es).containsUnknown = es.any Value.containsUnknown := by
  rw [Value.containsUnknown, any_attach_eq]

theorem containsUnknown_tuple (es : List Value) :
    (Value.tuple es).containsUnknown = es.any Value.containsUnknown := by
  rw [Value.containsUnknown, any_attach_eq]

theorem any_attach_eq_snd {α β : Type} (l : List (α × β)) (f : β → Bool) :
    (l.attach.any fun p => f p.1.2) = l.any (fun kv => f kv.2) := by
  rw [Bool.eq_iff_iff]
  simp only [List.any_eq_true, List.mem_attach, true_and, Subtype.exists]
  constructor
  · rintro ⟨x, hx, hfx⟩
    exact ⟨x, hx, hfx⟩
  · rintro ⟨x, hx, hfx⟩
    exact ⟨x, hx, hfx⟩

theorem containsUnknown_map (ety : CtyType) (kvs : List (String × Value)) :
    (Value.map ety kvs).containsUnknown = kvs.any (fun kv => kv.2.containsUnknown) := by
  rw [Value.containsUnknown, any_attach_eq_snd kvs Value.containsUnknown]

theorem containsUnknown_object (kvs : List (String × Value)) :
    (Value.object kvs).containsUnknown = kvs.any (fun kv => kv.2.containsUnknown) := by
  rw [Value.containsUnknown, any_attach_eq_snd kvs Value.containsUnknown]

/-- Model of the external go-cty `cty.UnknownAsNull`: replaces every
unknown value anywhere in the given value with a null of the same type.
Known collections are rebuilt with converted elements (the library
re-canonicalizes sets while doing so; element order is kept here). -/
def Value.unknownAsNull : Value → Value
  | .unknown ty => .null ty
  | .list ety es => .list ety (es.attach.map fun p => p.1.unknownAsNull)
  | .set ety es => .set ety (es.attach.map fun p => p.1.unknownAsNull)
  | .tuple es => .tuple (es.attach.map fun p => p.1.unknownAsNull)
  | .map ety kvs => .map ety (kvs.attach.map fun p => (p.1.1, p.1.2.unknownAsNull))
  | .object kvs => .object (kvs.attach.map fun p => (p.1.1, p.1.2.unknownAsNull))
  | v => v
decreasing_by
  all_goals simp_wf
  all_goals first
    | (have h := sizeOf_snd_lt_of_mem p.2; omega)
    | (have h := List.sizeOf_lt_of_mem p.2; omega)

/-- After `unknownAsNull`, no unknown placeholder remains anywhere. -/
theorem unknownAsNull_containsUnknown : ∀ (v : Value),
    v.unknownAsNull.containsUnknown = false
  | .null _ => by simp [Value.unknownAsNull, Value.containsUnknown]
  | .unknown _ => by simp [Value.unknownAsNull, Value.containsUnknown]
  | .bool _ => by simp [Value.unknownAsNull, Value.containsUnknown]
  | .number _ => by simp [Value.unknownAsNull, Value.containsUnknown]
  | .str _ => by simp [Value.unknownAsNull, Value.containsUnknown]
  | .list ety es => by
      rw [Value.unknownAsNull, containsUnknown_list, List.any_eq_false]
      intro x hx
      rw [List.mem_map] at hx
      obtain ⟨p, hp, hfx⟩ := hx
      simp [← hfx, unknownAsNull_containsUnknown p.1]
  | .set ety es => by
      rw [Value.unknownAsNull, containsUnknown_set, List.any_eq_false]
      intro x hx
      rw [List.mem_map] at hx
      obtain ⟨p, hp, hfx⟩ := hx
      simp [← hfx, unknownAsNull_containsUnknown p.1]
  | .tuple es => by
      rw [Value.unknownAsNull, containsUnknown_tuple, List.any_eq_false]
      intro x hx
      rw [List.mem_map] at hx
      obtain ⟨p, hp, hfx⟩ := hx
      simp [← hfx, unknownAsNull_containsUnknown p.1]
  | .map ety kvs => by
      rw [Value.unknownAsNull, containsUnknown_map, List.any_eq_false]
      intro x hx
      rw [List.mem_map] at hx
      obtain ⟨p, hp, hfx⟩ := hx
      simp [← hfx, unknownAsNull_containsUnknown p.1.2]
  | .object kvs => by
      rw [Value.unknownAsNull, containsUnknown_object, List.any_eq_false]
      intro x hx
      rw [List.mem_map] at hx
      obtain ⟨p, hp, hfx⟩ := hx
      simp [← hfx, unknownAsNull_containsUnknown p.1.2]
decreasing_by
  all_goals simp_wf
  all_goals first
    | (have h := sizeOf_snd_lt_of_mem p.2; omega)
    | (have h := List.sizeOf_lt_of_mem p.2; omega)

/-!
The second section embeds the schema model of the SDK core
(`SchemaBlockType` and friends, file part_006 of package tfsdk), its
diagnostics (diagnostics.go), and the defaulting operation.
-/

/-- A step of a diagnostic attribute path (go-cty `cty.Path` steps):
either an attribute name or a collection index/key. -/
inductive PathStep where
  | getAttr (name : String)
  | index (key : Value)

/-- Diagnostic severity (diagnostics.go). -/
inductive DiagSeverity where
  | invalid
  | error
  | warning

/-- A diagnostic (diagnostics.go). -/
structure Diagnostic where
  severity : DiagSeverity
  summary : String
  detail : String
  path : List PathStep

/-- `Diagnostics` is a list of `Diagnostic` (diagnostics.go). -/
abbrev Diagnostics := List Diagnostic

/-- Model of `Diagnostics.UnderPath` (diagnostics.go): rewrites each
diagnostic path to be relative to the given base path. -/
def Diagnostics.UnderPath (diags : Diagnostics) (base : List PathStep) : Diagnostics :=
  diags.map fun d => { d with path := base ++ d.path }

/-- Model of `SchemaAttribute` (part_006).  The Go `Default` field holds
a Go-native value converted through `gocty.ToCtyValue` on use; the model
carries the converted cty value directly (a nil Go default is `none`).
`ValidateFn` is a reflected Go function; the model carries it as an
optional function from the (converted) attribute value to diagnostics. -/
structure SchemaAttribute where
  type : CtyType
  required : Bool := false
  optional : Bool := false
  computed : Bool := false
  sensitive : Bool := false
  description : String := ""
  validateFn : Option (Value → Diagnostics) := none
  default : Option Value := none

/-- Nesting modes of `SchemaNestedBlockType` (part_006). -/
inductive SchemaNestingMode where
  | invalid
  | single
  | list
  | map
  | set
deriving DecidableEq

mutual

/-- Model of `SchemaBlockType` (part_006): named attributes plus named
nested block types.  The Go fields are string-keyed maps; they are
modelled as association lists, with key uniqueness stated as `Nodup`
hypotheses on theorems where it matters. -/
inductive SchemaBlockType where
  | mk (attributes : List (String × SchemaAttribute))
       (nestedBlockTypes : List (String × SchemaNestedBlockType))

/-- Model of `SchemaNestedBlockType` (part_006). -/
inductive SchemaNestedBlockType where
  | mk (nesting : SchemaNestingMode) (content : SchemaBlockType)
       (maxItems minItems : Int)

end

def SchemaBlockType.attributes : SchemaBlockType → List (String × SchemaAttribute)
  | .mk attrs _ => attrs

def SchemaBlockType.nestedBlockTypes : SchemaBlockType → List (String × SchemaNestedBlockType)
  | .mk _ blocks => blocks

def SchemaNestedBlockType.nesting : SchemaNestedBlockType → SchemaNestingMode
  | .mk nesting _ _ _ => nesting

def SchemaNestedBlockType.content : SchemaNestedBlockType → SchemaBlockType
  | .mk _ content _ _ => content

/-- Model of `SchemaAttribute.DefaultValue` (part_006): the converted
static default, or a typed null when no default is declared. -/
def SchemaAttribute.DefaultValue (a : SchemaAttribute) : Value :=
  match a.default with
  | none => Value.null a.type
  | some v => v

mutual

/-- Model of `SchemaBlockType.ImpliedCtyType` (part_006): the derived
object type, with one attribute per schema attribute and per nested
block type. -/
def SchemaBlockType.ImpliedCtyType : SchemaBlockType → CtyType
  | .mk attrs blocks =>
      .object (attrs.map (fun p => (p.1, p.2.type)) ++
               blocks.attach.map (fun p => (p.1.1, p.1.2.impliedCtyType)))
termination_by b => sizeOf b
decreasing_by
  all_goals simp_wf
  have h := sizeOf_snd_lt_of_mem p.2; omega

/-- Model of `SchemaNestedBlockType.impliedCtyType` (part_006): bare for
single nesting; dynamic when the nested type contains dynamic types;
otherwise wrapped by list/set/map according to the nesting mode. -/
def SchemaNestedBlockType.impliedCtyType : SchemaNestedBlockType → CtyType
  | .mk nesting content _ _ =>
      let nested := content.ImpliedCtyType
      if nesting = .single then nested
      else if nested.hasDynamicTypes then .dynamic
      else match nesting with
        | .list => .list nested
        | .set => .set nested
        | .map => .map nested
        | _ => .dynamic
termination_by b => sizeOf b
decreasing_by
  all_goals simp_wf
  all_goals omega

end

/-- The per-attribute rule of `SchemaBlockType.ApplyDefaults`
(part_006 lines 428-440): a null attribute becomes the unknown
placeholder of its declared type when computed, and its static default
otherwise; non-null attributes are unchanged. -/
def defaultedAttrVal (a : SchemaAttribute) (gv : Value) : Value :=
  if gv.isNull then
    if a.computed then Value.unknown a.type else a.DefaultValue
  else gv

/-- Model of go-cty `ListVal`: the element type is taken from the first
element (go-cty requires a non-empty homogeneous list and panics
otherwise; the model defaults to the dynamic type on an empty list). -/
def listValOf (vals : List Value) : Value :=
  Value.list ((vals.head?.map Value.typeOf).getD .dynamic) vals

/-- Model of go-cty `SetVal`, with elements kept in iteration order. -/
def setValOf (vals : List Value) : Value :=
  Value.set ((vals.head?.map Value.typeOf).getD .dynamic) vals

/-- Model of go-cty `MapVal`, with entries kept in iteration order. -/
def mapValOf (kvs : List (String × Value)) : Value :=
  Value.map ((kvs.head?.map (fun kv => kv.2.typeOf)).getD .dynamic) kvs

mutual

/-- Model of `SchemaBlockType.ApplyDefaults` (part_006 lines 424-447):
rebuilds the object, replacing each null attribute with the unknown
placeholder of its type when the attribute is computed and with its
static default otherwise, and recursing into every nested block type. -/
def SchemaBlockType.ApplyDefaults : SchemaBlockType → Value → Value
  | .mk attrs blocks, given =>
      Value.object
        (attrs.map (fun p => (p.1, defaultedAttrVal p.2 (given.getAttr p.1))) ++
         blocks.attach.map (fun p =>
          (p.1.1, p.1.2.ApplyDefaults (given.getAttr p.1.1))))
termination_by b _ => sizeOf b
decreasing_by
  all_goals simp_wf
  have h := sizeOf_snd_lt_of_mem p.2; omega

/-- Model of `SchemaNestedBlockType.ApplyDefaults` (part_006 lines
458-513): null single blocks stay null, otherwise defaults are applied
to the nested object / every collection element, and the collection is
rebuilt (as a tuple/object when the nested schema contains dynamic
types).  The Go function panics on the invalid nesting mode; the model
returns a dynamic null there. -/
def SchemaNestedBlockType.ApplyDefaults : SchemaNestedBlockType → Value → Value
  | b@(.mk nesting content _ _), given =>
      let wantTy := b.impliedCtyType
      match nesting with
      | .single => if given.isNull then given else content.ApplyDefaults given
      | .list =>
          let vals := given.elems.map (fun gv => content.ApplyDefaults gv)
          if ¬ wantTy.isListType then Value.tuple vals
          else if vals.length = 0 then Value.list wantTy.elementType []
          else listValOf vals
      | .map =>
          let vals := given.entries.map (fun kv => (kv.1, content.ApplyDefaults kv.2))
          if ¬ wantTy.isMapType then Value.object vals
          else if vals.length = 0 then Value.map wantTy.elementType []
          else mapValOf vals
      | .set =>
          let vals := given.elems.map (fun gv => content.ApplyDefaults gv)
          if vals.length = 0 then Value.set wantTy.elementType []
          else setValOf vals
      | .invalid => Value.null .dynamic
termination_by b _ => sizeOf b
decreasing_by
  all_goals simp_wf
  all_goals omega

end

/-! Association-list lookup lemmas used to read attributes back out of
rebuilt object values. -/

theorem lookup_of_mem_nodup {β : Type} {l : List (String × β)} {name : String} {b : β}
    (hnodup : (l.map Prod.fst).Nodup) (hmem : (name, b) ∈ l) :
    l.lookup name = some b := by
  induction l with
  | nil => cases hmem
  | cons x xs ih =>
      obtain ⟨k, v⟩ := x
      rw [List.map_cons] at hnodup
      have hnd := List.nodup_cons.mp hnodup
      rcases List.mem_cons.mp hmem with heq | htail
      · cases heq
        simp [List.lookup_cons]
      · have hk : ¬ (name == k) = true := by
          intro h
          have hke : name = k := by simpa using h
          subst hke
          exact hnd.1 (List.mem_map.mpr ⟨(name, b), htail, rfl⟩)
        simp only [List.lookup_cons]
        rw [Bool.eq_false_iff.mpr hk]
        exact ih hnd.2 htail

theorem lookup_append_some {β : Type} {l₁ l₂ : List (String × β)} {name : String} {b : β}
    (h : l₁.lookup name = some b) : (l₁ ++ l₂).lookup name = some b := by
  induction l₁ with
  | nil => simp [List.lookup] at h
  | cons x xs ih =>
      obtain ⟨k, v⟩ := x
      simp only [List.cons_append, List.lookup_cons] at h ⊢
      cases hk : (name == k) with
      | true => rw [hk] at h; simpa [hk] using h
      | false => rw [hk] at h; simpa [hk] using ih h

theorem lookup_eq_none_of_not_mem {β : Type} {l : List (String × β)} {name : String}
    (h : name ∉ l.map Prod.fst) : l.lookup name = none := by
  induction l with
  | nil => rfl
  | cons x xs ih =>
      obtain ⟨k, v⟩ := x
      simp only [List.map_cons, List.mem_cons] at h
      push_neg at h
      have hk : (name == k) = false := by
        simpa using h.1
      simp only [List.lookup_cons, hk]
      exact ih h.2

theorem lookup_append_none {β : Type} {l₁ l₂ : List (String × β)} {name : String}
    (h : l₁.lookup name = none) : (l₁ ++ l₂).lookup name = l₂.lookup name := by
  induction l₁ with
  | nil => simp
  | cons x xs ih =>
      obtain ⟨k, v⟩ := x
      simp only [List.lookup_cons] at h
      cases hk : (name == k) with
      | true => rw [hk] at h; cases h
      | false =>
          rw [hk] at h
          simp only [List.cons_append, List.lookup_cons, hk]
          exact ih h

theorem getAttr_object (kvs : List (String × Value)) (name : String) :
    (Value.object kvs).getAttr name = (kvs.lookup name).getD (Value.null .dynamic) := rfl

/-- Reading a declared attribute back out of `ApplyDefaults` output
recovers the per-attribute defaulting rule. -/
theorem applyDefaults_getAttr_attr {attrs : List (String × SchemaAttribute)}
    {blocks : List (String × SchemaNestedBlockType)} (v : Value) {name : String}
    {attrS : SchemaAttribute}
    (hnodup : (attrs.map Prod.fst).Nodup) (hmem : (name, attrS) ∈ attrs) :
    ((SchemaBlockType.mk attrs blocks).ApplyDefaults v).getAttr name
      = defaultedAttrVal attrS (v.getAttr name) := by
  rw [SchemaBlockType.ApplyDefaults]
  have h1 : (attrs.map (fun p => (p.1, defaultedAttrVal p.2 (v.getAttr p.1)))).lookup name
      = some (defaultedAttrVal attrS (v.getAttr name)) := by
    apply lookup_of_mem_nodup
    · have hkeys : (attrs.map (fun p => (p.1, defaultedAttrVal p.2 (v.getAttr p.1)))).map Prod.fst
          = attrs.map Prod.fst := by
        simp [List.map_map, Function.comp]
      rw [hkeys]
      exact hnodup
    · exact List.mem_map.mpr ⟨(name, attrS), hmem, rfl⟩
  rw [getAttr_object, lookup_append_some h1]
  rfl

/-- Reading a declared nested block type back out of `ApplyDefaults`
output recovers the nested defaulting recursion. -/
theorem applyDefaults_getAttr_block {attrs : List (String × SchemaAttribute)}
    {blocks : List (String × SchemaNestedBlockType)} (v : Value) {name : String}
    {blockS : SchemaNestedBlockType}
    (hnodup : ((attrs.map Prod.fst) ++ (blocks.map Prod.fst)).Nodup)
    (hmem : (name, blockS) ∈ blocks) :
    ((SchemaBlockType.mk attrs blocks).ApplyDefaults v).getAttr name
      = blockS.ApplyDefaults (v.getAttr name) := by
  rw [SchemaBlockType.ApplyDefaults]
  obtain ⟨hna, hnb, hdisj⟩ := List.nodup_append.mp hnodup
  have hnotattr : name ∉ attrs.map Prod.fst := fun hmem1 =>
    hdisj hmem1 (List.mem_map.mpr ⟨(name, blockS), hmem, rfl⟩)
  have h0 : (attrs.map (fun p => (p.1, defaultedAttrVal p.2 (v.getAttr p.1)))).lookup name
      = none := by
    apply lookup_eq_none_of_not_mem
    have hkeys : (attrs.map (fun p => (p.1, defaultedAttrVal p.2 (v.getAttr p.1)))).map Prod.fst
        = attrs.map Prod.fst := by
      simp [List.map_map, Function.comp]
    rw [hkeys]
    exact hnotattr
  have hplain : blocks.attach.map (fun p => (p.1.1, p.1.2.ApplyDefaults (v.getAttr p.1.1)))
      = blocks.map (fun q => (q.1, q.2.ApplyDefaults (v.getAttr q.1))) :=
    List.attach_map_val blocks (fun q => (q.1, q.2.ApplyDefaults (v.getAttr q.1)))
  have h1 : (blocks.map (fun q => (q.1, q.2.ApplyDefaults (v.getAttr q.1)))).lookup name
      = some (blockS.ApplyDefaults (v.getAttr name)) := by
    apply lookup_of_mem_nodup
    · have hkeys : (blocks.map (fun q => (q.1, q.2.ApplyDefaults (v.getAttr q.1)))).map Prod.fst
          = blocks.map Prod.fst := by
        simp [List.map_map, Function.comp]
      rw [hkeys]
      exact hnb
    · exact List.mem_map.mpr ⟨(name, blockS), hmem, rfl⟩
  rw [getAttr_object, hplain, lookup_append_none h0, h1]
  rfl

/-- The per-attribute defaulting rule is idempotent. -/
theorem defaultedAttrVal_idem (a : SchemaAttribute) (gv : Value) :
    defaultedAttrVal a (defaultedAttrVal a gv) = defaultedAttrVal a gv := by
  unfold defaultedAttrVal
  by_cases hn : gv.isNull = true
  · simp only [hn, if_true]
    by_cases hc : a.computed = true
    · simp [hc, Value.isNull]
    · simp only [hc, if_false, Bool.false_eq_true]
      by_cases hd : (a.DefaultValue).isNull = true
      · simp [hd, hc]
      · simp [hd]
  · simp [hn]

/-- `ApplyDefaults` always rebuilds an object value, hence never a null. -/
theorem applyDefaults_not_null (S : SchemaBlockType) (v : Value) :
    (S.ApplyDefaults v).isNull = false := by
  obtain ⟨attrs, blocks⟩ := S
  rw [SchemaBlockType.ApplyDefaults]
  rfl

theorem sizeOf_content_lt (b : SchemaNestedBlockType) : sizeOf b.content < sizeOf b := by
  obtain ⟨n, c, mx, mn⟩ := b
  simp [SchemaNestedBlockType.content]
  omega

/-- Well-formedness mirroring the Go schema representation: attribute
and nested-block-type names are keys of Go maps, hence pairwise
distinct (also from each other, since the derived object type has one
attribute per name), recursively at every nesting level. -/
def SchemaBlockType.Wf : SchemaBlockType → Prop
  | .mk attrs blocks =>
      ((attrs.map Prod.fst) ++ (blocks.map Prod.fst)).Nodup ∧
      ∀ p ∈ blocks, p.2.content.Wf
termination_by b => sizeOf b
decreasing_by
  simp_wf
  rename_i hp
  have h1 := sizeOf_snd_lt_of_mem hp
  have h2 := sizeOf_content_lt p.2
  omega

theorem elems_tuple (es : List Value) : (Value.tuple es).elems = es := rfl

theorem elems_list (t : CtyType) (es : List Value) : (Value.list t es).elems = es := rfl

theorem elems_set (t : CtyType) (es : List Value) : (Value.set t es).elems = es := rfl

theorem entries_mapv (t : CtyType) (kvs : List (String × Value)) :
    (Value.map t kvs).entries = kvs := rfl

theorem entries_object (kvs : List (String × Value)) : (Value.object kvs).entries = kvs := rfl

theorem elems_listValOf (vals : List Value) : (listValOf vals).elems = vals := rfl

theorem elems_setValOf (vals : List Value) : (setValOf vals).elems = vals := rfl

theorem entries_mapValOf (kvs : List (String × Value)) : (mapValOf kvs).entries = kvs := rfl

theorem nestedAD_single (content : SchemaBlockType) (mx mn : Int) (v : Value) :
    (SchemaNestedBlockType.mk .single content mx mn).ApplyDefaults v =
      if v.isNull then v else content.ApplyDefaults v := by
  rw [SchemaNestedBlockType.ApplyDefaults]

theorem nestedAD_invalid (content : SchemaBlockType) (mx mn : Int) (v : Value) :
    (SchemaNestedBlockType.mk .invalid content mx mn).ApplyDefaults v =
      Value.null .dynamic := by
  rw [SchemaNestedBlockType.ApplyDefaults]

theorem nestedAD_list (content : SchemaBlockType) (mx mn : Int) (v : Value) :
    (SchemaNestedBlockType.mk .list content mx mn).ApplyDefaults v =
      if ¬ (SchemaNestedBlockType.mk .list content mx mn).impliedCtyType.isListType
      then Value.tuple (v.elems.map (fun gv => content.ApplyDefaults gv))
      else if (v.elems.map (fun gv => content.ApplyDefaults gv)).length = 0
      then Value.list
        (SchemaNestedBlockType.mk .list content mx mn).impliedCtyType.elementType []
      else listValOf (v.elems.map (fun gv => content.ApplyDefaults gv)) := by
  rw [SchemaNestedBlockType.ApplyDefaults]

theorem nestedAD_map (content : SchemaBlockType) (mx mn : Int) (v : Value) :
    (SchemaNestedBlockType.mk .map content mx mn).ApplyDefaults v =
      if ¬ (SchemaNestedBlockType.mk .map content mx mn).impliedCtyType.isMapType
      then Value.object (v.entries.map (fun kv => (kv.1, content.ApplyDefaults kv.2)))
      else if (v.entries.map (fun kv => (kv.1, content.ApplyDefaults kv.2))).length = 0
      then Value.map
        (SchemaNestedBlockType.mk .map content mx mn).impliedCtyType.elementType []
      else mapValOf (v.entries.map (fun kv => (kv.1, content.ApplyDefaults kv.2))) := by
  rw [SchemaNestedBlockType.ApplyDefaults]

theorem nestedAD_set (content : SchemaBlockType) (mx mn : Int) (v : Value) :
    (SchemaNestedBlockType.mk .set content mx mn).ApplyDefaults v =
      if (v.elems.map (fun gv => content.ApplyDefaults gv)).length = 0
      then Value.set
        (SchemaNestedBlockType.mk .set content mx mn).impliedCtyType.elementType []
      else setValOf (v.elems.map (fun gv => content.ApplyDefaults gv)) := by
  rw [SchemaNestedBlockType.ApplyDefaults]

mutual

/-- `SchemaBlockType.ApplyDefaults` is idempotent (for any input value;
in particular for values conforming to the schema). -/
theorem blockApplyDefaults_idem :
    ∀ (S : SchemaBlockType) (v : Value), S.Wf →
      S.ApplyDefaults (S.ApplyDefaults v) = S.ApplyDefaults v
  | .mk attrs blocks, v, hwf => by
      rw [SchemaBlockType.Wf] at hwf
      obtain ⟨hnodup, hblocks⟩ := hwf
      have hna : (attrs.map Prod.fst).Nodup := (List.nodup_append.mp hnodup).1
      conv_lhs => rw [SchemaBlockType.ApplyDefaults]
      have hattrpart :
          attrs.map (fun p => (p.1,
              defaultedAttrVal p.2
                (((SchemaBlockType.mk attrs blocks).ApplyDefaults v).getAttr p.1)))
            = attrs.map (fun p => (p.1, defaultedAttrVal p.2 (v.getAttr p.1))) := by
        apply List.map_congr_left
        intro p hp
        have hp2 : (p.1, p.2) ∈ attrs := by simpa using hp
        rw [applyDefaults_getAttr_attr v hna hp2, defaultedAttrVal_idem]
      have hblockpart :
          blocks.attach.map (fun p => (p.1.1,
              p.1.2.ApplyDefaults
                (((SchemaBlockType.mk attrs blocks).ApplyDefaults v).getAttr p.1.1)))
            = blocks.attach.map (fun p =>
                (p.1.1, p.1.2.ApplyDefaults (v.getAttr p.1.1))) := by
        apply List.map_congr_left
        intro q hq
        have hq2 : (q.1.1, q.1.2) ∈ blocks := by simpa using q.2
        rw [applyDefaults_getAttr_block v hnodup hq2,
          nestedApplyDefaults_idem q.1.2 (v.getAttr q.1.1)
            (hblocks q.1 q.2)]
      rw [hattrpart, hblockpart, SchemaBlockType.ApplyDefaults]
  termination_by S _ _ => sizeOf S
  decreasing_by
    simp_wf
    have h := sizeOf_snd_lt_of_mem q.2
    omega

/-- `SchemaNestedBlockType.ApplyDefaults` is idempotent. -/
theorem nestedApplyDefaults_idem :
    ∀ (B : SchemaNestedBlockType) (v : Value), B.content.Wf →
      B.ApplyDefaults (B.ApplyDefaults v) = B.ApplyDefaults v
  | .mk nesting content mx mn, v, hwf => by
      have hwf2 : content.Wf := hwf
      cases nesting with
      | invalid =>
          rw [nestedAD_invalid, nestedAD_invalid]
      | single =>
          rw [nestedAD_single, nestedAD_single]
          by_cases hn : v.isNull = true
          · simp [hn]
          · simp only [hn, Bool.false_eq_true, if_false, applyDefaults_not_null]
            exact blockApplyDefaults_idem content v hwf2
      | list =>
          have hfix : (v.elems.map (fun gv => content.ApplyDefaults gv)).map
                (fun gv => content.ApplyDefaults gv)
              = v.elems.map (fun gv => content.ApplyDefaults gv) := by
            rw [List.map_map]
            apply List.map_congr_left
            intro gv hgv
            exact blockApplyDefaults_idem content gv hwf2
          by_cases hL :
              (SchemaNestedBlockType.mk SchemaNestingMode.list content
                mx mn).impliedCtyType.isListType = true
          · by_cases hlen :
                (v.elems.map (fun gv => content.ApplyDefaults gv)).length = 0
            · have hstep : (SchemaNestedBlockType.mk SchemaNestingMode.list content
                  mx mn).ApplyDefaults v
                  = Value.list (SchemaNestedBlockType.mk SchemaNestingMode.list content
                      mx mn).impliedCtyType.elementType [] := by
                rw [nestedAD_list]
                simp [hL, hlen]
              rw [hstep, nestedAD_list]
              simp [hL, elems_list]
            · have hne : ¬ (v.elems = []) := by
                intro h
                exact hlen (by simp [h])
              have hstep : (SchemaNestedBlockType.mk SchemaNestingMode.list content
                  mx mn).ApplyDefaults v
                  = listValOf (v.elems.map (fun gv => content.ApplyDefaults gv)) := by
                rw [nestedAD_list]
                simp [hL, hne]
              rw [hstep, nestedAD_list]
              simp [hL, hne, elems_listValOf, hfix]
          · have hstep : (SchemaNestedBlockType.mk SchemaNestingMode.list content
                mx mn).ApplyDefaults v
                = Value.tuple (v.elems.map (fun gv => content.ApplyDefaults gv)) := by
              rw [nestedAD_list]
              simp [hL]
            rw [hstep, nestedAD_list]
            simp [hL, elems_tuple, hfix]
      | map =>
          have hfix : (v.entries.map (fun kv => (kv.1, content.ApplyDefaults kv.2))).map
                (fun kv => (kv.1, content.ApplyDefaults kv.2))
              = v.entries.map (fun kv => (kv.1, content.ApplyDefaults kv.2)) := by
            rw [List.map_map]
            apply List.map_congr_left
            intro kv hkv
            simp only [Function.comp]
            rw [blockApplyDefaults_idem content kv.2 hwf2]
          by_cases hM :
              (SchemaNestedBlockType.mk SchemaNestingMode.map content
                mx mn).impliedCtyType.isMapType = true
          · by_cases hlen :
                (v.entries.map (fun kv => (kv.1, content.ApplyDefaults kv.2))).length = 0
            · have hstep : (SchemaNestedBlockType.mk SchemaNestingMode.map content
                  mx mn).ApplyDefaults v
                  = Value.map (SchemaNestedBlockType.mk SchemaNestingMode.map content
                      mx mn).impliedCtyType.elementType [] := by
                rw [nestedAD_map]
                simp [hM, hlen]
              rw [hstep, nestedAD_map]
              simp [hM, entries_mapv]
            · have hne : ¬ (v.entries = []) := by
                intro h
                exact hlen (by simp [h])
              have hstep : (SchemaNestedBlockType.mk SchemaNestingMode.map content
                  mx mn).ApplyDefaults v
                  = mapValOf (v.entries.map (fun kv => (kv.1, content.ApplyDefaults kv.2))) := by
                rw [nestedAD_map]
                simp [hM, hne]
              rw [hstep, nestedAD_map]
              simp [hM, hne, entries_mapValOf, hfix]
          · have hstep : (SchemaNestedBlockType.mk SchemaNestingMode.map content
                mx mn).ApplyDefaults v
                = Value.object (v.entries.map (fun kv => (kv.1, content.ApplyDefaults kv.2))) := by
              rw [nestedAD_map]
              simp [hM]
            rw [hstep, nestedAD_map]
            simp [hM, entries_object, hfix]
      | set =>
          have hfix : (v.elems.map (fun gv => content.ApplyDefaults gv)).map
                (fun gv => content.ApplyDefaults gv)
              = v.elems.map (fun gv => content.ApplyDefaults gv) := by
            rw [List.map_map]
            apply List.map_congr_left
            intro gv hgv
            exact blockApplyDefaults_idem content gv hwf2
          by_cases hlen :
              (v.elems.map (fun gv => content.ApplyDefaults gv)).length = 0
          · have hstep : (SchemaNestedBlockType.mk SchemaNestingMode.set content
                mx mn).ApplyDefaults v
                = Value.set (SchemaNestedBlockType.mk SchemaNestingMode.set content
                    mx mn).impliedCtyType.elementType [] := by
              rw [nestedAD_set]
              simp [hlen]
            rw [hstep, nestedAD_set]
            simp [elems_set]
          · have hne : ¬ (v.elems = []) := by
              intro h
              exact hlen (by simp [h])
            have hstep : (SchemaNestedBlockType.mk SchemaNestingMode.set content
                mx mn).ApplyDefaults v
                = setValOf (v.elems.map (fun gv => content.ApplyDefaults gv)) := by
              rw [nestedAD_set]
              simp [hne]
            rw [hstep, nestedAD_set]
            simp [hne, elems_setValOf, hfix]
  termination_by B _ _ => sizeOf B
  decreasing_by
    all_goals simp_wf
    all_goals omega

end

/-! Claim C4 and C5 statements and witnesses. -/

/-- Concrete example schema used by witnesses: a required string
attribute, an optional+computed string attribute with no default, an
optional number attribute with a static default, and a single-nesting
block with one optional string attribute. -/
def exC4Schema : SchemaBlockType :=
  SchemaBlockType.mk
    [("name", { type := .string, required := true }),
     ("id", { type := .string, optional := true, computed := true }),
     ("count", { type := .number, optional := true, default := some (Value.number 3) })]
    [("blk", SchemaNestedBlockType.mk .single
        (SchemaBlockType.mk [("x", { type := .string, optional := true })] []) 0 0)]

/-- Concrete example value for `exC4Schema`. -/
def exC4Value : Value :=
  Value.object
    [("name", Value.str "a"),
     ("id", Value.null .string),
     ("count", Value.null .number),
     ("blk", Value.object [("x", Value.null .string)])]

theorem exC4Schema_wf : exC4Schema.Wf := by
  rw [exC4Schema, SchemaBlockType.Wf]
  refine ⟨by decide, ?_⟩
  intro p hp
  simp only [List.mem_singleton] at hp
  subst hp
  rw [SchemaNestedBlockType.content, SchemaBlockType.Wf]
  exact ⟨by decide, by intro q hq; cases hq⟩

/-- C4: for every schema S and every object value V (in particular every
value conforming to S), applying defaults twice equals applying them
once: `applyDefaults(S, applyDefaults(S, V)) == applyDefaults(S, V)`.
The hypothesis is only that the schema's attribute and block names are
pairwise distinct, which the Go map-based representation guarantees. -/
theorem C4_applyDefaults_idempotent (S : SchemaBlockType) (V : Value) (hwf : S.Wf) :
    S.ApplyDefaults (S.ApplyDefaults V) = S.ApplyDefaults V :=
  blockApplyDefaults_idem S V hwf

/-- Witness for C4 at a concrete schema and value. -/
theorem C4_witness :
    exC4Schema.Wf ∧
      exC4Schema.ApplyDefaults (exC4Schema.ApplyDefaults exC4Value)
        = exC4Schema.ApplyDefaults exC4Value :=
  ⟨exC4Schema_wf, C4_applyDefaults_idempotent exC4Schema exC4Value exC4Schema_wf⟩

/-- C5: for every schema and every value, `applyDefaults` transforms
each declared attribute as follows: a null attribute becomes the unknown
placeholder of the attribute's declared type if the attribute is
computed, and otherwise its static default (which is itself null when no
default is declared); a non-null attribute is left unchanged. -/
theorem C5_applyDefaults_attr_transform
    (attrs : List (String × SchemaAttribute)) (blocks : List (String × SchemaNestedBlockType))
    (v : Value) (name : String) (attrS : SchemaAttribute)
    (hnodup : (attrs.map Prod.fst).Nodup) (hmem : (name, attrS) ∈ attrs) :
    ((SchemaBlockType.mk attrs blocks).ApplyDefaults v).getAttr name
      = if (v.getAttr name).isNull then
          (if attrS.computed then Value.unknown attrS.type else attrS.DefaultValue)
        else v.getAttr name := by
  rw [applyDefaults_getAttr_attr v hnodup hmem]
  rfl

/-- Witness for C5 at a concrete schema, value and attribute: the null
computed attribute `id` becomes the unknown string placeholder. -/
theorem C5_witness :
    ((["name", "id", "count"] :
        List String).Nodup) ∧
      ((SchemaBlockType.mk
          [("name", { type := .string, required := true }),
           ("id", { type := .string, optional := true, computed := true }),
           ("count", { type := .number, optional := true, default := some (Value.number 3) })]
          []).ApplyDefaults exC4Value).getAttr "id"
        = Value.unknown .string := by
  constructor
  · decide
  · rw [C5_applyDefaults_attr_transform _ _ exC4Value "id"
      { type := .string, optional := true, computed := true }
      (by decide) (by simp)]
    rfl

/-!
Third section: the tfobj object builder and plan builder (vendored
terraform-sdk, tfobj/object_builder.go and tfobj/plan_builder.go).

These files operate on `tfschema.BlockType`, whose defining source file
is not under src/; its shape (string-keyed maps of attribute and nested
block type descriptors with the same fields) is visible from its uses in
tfobj and from the spec's data model, and coincides with the tfsdk
schema type modelled above, so the same Lean schema type is used for
both.
-/

/-- Model of `Action` (plan_builder.go lines 144-153). -/
inductive Action where
  | invalid
  | read
  | create
  | update
  | delete
deriving DecidableEq

/-- Model of the `objectBuilder` struct (object_builder.go lines
104-110): the schema, the current attribute values, and eagerly-built
child builders per nesting mode.  The Go fields are string-keyed maps,
modelled as association lists; a key absent from the Go map reads as the
zero value (nil pointer / nil slice / nil map), which the model reads
back with `getD` defaults. -/
inductive ObjectBuilder where
  | mk (schema : SchemaBlockType)
       (attrs : List (String × Value))
       (singleBlocks : List (String × Option ObjectBuilder))
       (listBlocks : List (String × List ObjectBuilder))
       (mapBlocks : List (String × List (String × ObjectBuilder)))

def ObjectBuilder.schema : ObjectBuilder → SchemaBlockType
  | .mk s _ _ _ _ => s

def ObjectBuilder.attrs : ObjectBuilder → List (String × Value)
  | .mk _ a _ _ _ => a

def ObjectBuilder.singleBlocks : ObjectBuilder → List (String × Option ObjectBuilder)
  | .mk _ _ sb _ _ => sb

def ObjectBuilder.listBlocks : ObjectBuilder → List (String × List ObjectBuilder)
  | .mk _ _ _ lb _ => lb

def ObjectBuilder.mapBlocks : ObjectBuilder → List (String × List (String × ObjectBuilder))
  | .mk _ _ _ _ mb => mb

/-- Model of `newObjectBuilder` (object_builder.go lines 112-177).  The
Go `cty.NilVal` initial value is `none`.  Attributes are copied from the
initial value (or set to typed nulls); child builders are built eagerly
per nesting mode.  Where the Go code leaves a map key unassigned (a
null/unknown initial collection), the model stores an empty collection,
which reads back identically through the map-with-zero-default
accessors.  Blocks with an invalid nesting mode (where Go panics) get no
entry. -/
def newObjectBuilder : SchemaBlockType → Option Value → ObjectBuilder
  | .mk attrs blocks, initial =>
      ObjectBuilder.mk (.mk attrs blocks)
        (attrs.map (fun p =>
          (p.1, match initial with
                | none => Value.null p.2.type
                | some init => init.getAttr p.1)))
        (blocks.attach.filterMap (fun p =>
          if p.1.2.nesting = .single then
            some (p.1.1,
              match initial with
              | none => none
              | some init =>
                  let nv := init.getAttr p.1.1
                  if nv.isNull then none
                  else some (newObjectBuilder p.1.2.content (some nv)))
          else none))
        (blocks.attach.filterMap (fun p =>
          if p.1.2.nesting = .list ∨ p.1.2.nesting = .set then
            some (p.1.1,
              match initial with
              | none => []
              | some init =>
                  let nv := init.getAttr p.1.1
                  if nv.isKnown && !nv.isNull then
                    nv.elems.map (fun ev => newObjectBuilder p.1.2.content (some ev))
                  else [])
          else none))
        (blocks.attach.filterMap (fun p =>
          if p.1.2.nesting = .map then
            some (p.1.1,
              match initial with
              | none => []
              | some init =>
                  let nv := init.getAttr p.1.1
                  if nv.isKnown && !nv.isNull then
                    nv.entries.map (fun kv => (kv.1, newObjectBuilder p.1.2.content (some kv.2)))
                  else [])
          else none))
termination_by b _ => sizeOf b
decreasing_by
  all_goals simp_wf
  all_goals (have h1 := sizeOf_snd_lt_of_mem p.2
             have h2 := sizeOf_content_lt p.1.2
             omega)

/-- Model of `objectBuilder.Attr` (object_builder.go lines 246-251);
`none` models the panic on an undeclared attribute. -/
def ObjectBuilder.Attr (b : ObjectBuilder) (name : String) : Option Value :=
  if (b.schema.attributes.lookup name).isSome then b.attrs.lookup name
  else none

/-- Model of `objectBuilder.BlockCount` (object_builder.go lines
265-283); `none` models the panics on an undeclared or invalid-mode
block type. -/
def ObjectBuilder.BlockCount (b : ObjectBuilder) (typeName : String) : Option Nat :=
  match b.schema.nestedBlockTypes.lookup typeName with
  | none => none
  | some blockS =>
      match blockS.nesting with
      | .single => some (match (b.singleBlocks.lookup typeName).getD none with
                         | none => 0
                         | some _ => 1)
      | .list => some ((b.listBlocks.lookup typeName).getD []).length
      | .set => some ((b.listBlocks.lookup typeName).getD []).length
      | .map => some ((b.mapBlocks.lookup typeName).getD []).length
      | .invalid => none

/-- Go map assignment `m[k] = v` on an association list: replaces the
binding when the key is present, appends it otherwise. -/
def assocSet {β : Type} : List (String × β) → String → β → List (String × β)
  | [], k, v => [(k, v)]
  | (k0, v0) :: rest, k, v =>
      if k0 == k then (k, v) :: rest else (k0, v0) :: assocSet rest k v

/-- Model of `objectBuilderFull.ReplaceBlocksMap` (object_builder.go
lines 438-452), exactly as written: the empty-collection branch assigns
the empty collection to `listBlocks[typeName]` — not to
`mapBlocks[typeName]`.  `none` models the panic on an undeclared or
non-map-nesting block type. -/
def ObjectBuilder.ReplaceBlocksMap (b : ObjectBuilder) (typeName : String)
    (nbs : List (String × ObjectBuilder)) : Option ObjectBuilder :=
  match b.schema.nestedBlockTypes.lookup typeName with
  | none => none
  | some blockS =>
      if blockS.nesting ≠ .map then none
      else if nbs.length = 0 then
        some (ObjectBuilder.mk b.schema b.attrs b.singleBlocks
          (assocSet b.listBlocks typeName []) b.mapBlocks)
      else
        some (ObjectBuilder.mk b.schema b.attrs b.singleBlocks b.listBlocks
          (assocSet b.mapBlocks typeName nbs))

/-- Model of the `planBuilder` struct (plan_builder.go lines 155-161):
prior and config readers are modelled by their object values (`none` for
Go nil), planned by an object builder state. -/
structure PlanBuilderState where
  action : Action
  schema : SchemaBlockType
  prior : Option Value
  config : Option Value
  planned : Option ObjectBuilder

/-- go-cty `IsNull` lifted to the `Option Value` model of arguments that
may be `cty.NilVal` (the zero `cty.Value`, which reports itself null). -/
def ctyIsNull : Option Value → Bool
  | none => true
  | some v => v.isNull

/-- Model of `newPlanBuilder` (plan_builder.go lines 182-208).  Go
`cty.NilVal` arguments are `none`.  Readers for prior/config are built
only for non-nil non-null values; the planned builder only for a non-nil
non-null proposed value.  The action is Delete when proposed is null,
else Create when prior is null, else Update.  The result is `none`
when `NewObjectReader` would panic (a non-null prior/config that is
unknown or not an object). -/
def mkPlanReader : Option Value → Option (Option Value)
  | none => some none
  | some v =>
      if v.isNull then some none
      else if ¬ v.isKnown ∨ ¬ v.typeOf.isObjectType then none
      else some (some v)

def newPlanBuilder (schema : SchemaBlockType) (prior config proposed : Option Value) :
    Option PlanBuilderState :=
  match mkPlanReader prior, mkPlanReader config with
  | some priorReader, some configReader =>
      let plannedBuilder := match proposed with
        | some pr => if ¬ pr.isNull then some (newObjectBuilder schema (some pr)) else none
        | none => none
      let action := if ctyIsNull proposed then Action.delete
        else if ctyIsNull prior then Action.create
        else Action.update
      some ⟨action, schema, priorReader, configReader, plannedBuilder⟩
  | _, _ => none

/-- Model of the action classification of `planBuilder.subBuilder`
(plan_builder.go lines 542-556): Delete when the planned child builder
is nil, else Create when the prior child reader is nil, else Update. -/
def subBuilderAction (prior : Option Value) (planned : Option ObjectBuilder) : Action :=
  if planned.isNone then .delete
  else if prior.isNone then .create
  else .update

/-- Model of `planBuilder.AttrChange` (plan_builder.go lines 243-259):
the prior side is read from the prior reader (a typed null when there is
none), the planned side from the planned builder (a typed null when
there is none, i.e. for a delete plan).  `none` models the panic on an
undeclared attribute. -/
def PlanBuilderState.AttrChange (b : PlanBuilderState) (name : String) :
    Option (Value × Value) :=
  match b.schema.attributes.lookup name with
  | none => none
  | some attrS =>
      let priorV : Value := match b.prior with
        | some r => r.getAttr name
        | none => Value.null attrS.type
      match b.planned with
      | some pb =>
          match pb.Attr name with
          | some plv => some (priorV, plv)
          | none => none
      | none => some (priorV, Value.null attrS.type)

/-- Model of `planBuilder.AttrHasChange` (plan_builder.go lines 261-271),
exactly as written: conservatively true when the equality comparison is
unknown, and otherwise the result of `eqV.True()`. -/
def PlanBuilderState.AttrHasChange (b : PlanBuilderState) (name : String) : Option Bool :=
  match b.AttrChange name with
  | none => none
  | some pr =>
      let eqV := pr.2.Equals pr.1
      if ¬ eqV.isKnown then some true
      else some eqV.isTrueVal

/-- Model of `planBuilder.CanProvideAttrDefault` (plan_builder.go lines
273-288): false for a delete plan or a non-computed attribute, and
otherwise the nullness of the attribute in the PLANNED object (read via
`b.Attr`). -/
def PlanBuilderState.CanProvideAttrDefault (b : PlanBuilderState) (name : String) :
    Option Bool :=
  match b.schema.attributes.lookup name with
  | none => none
  | some attrS =>
      match b.planned with
      | none => some false
      | some pb =>
          if ¬ attrS.computed then some false
          else match pb.Attr name with
            | none => none
            | some v => some v.isNull

/-! Claims C1, C2, C3, C6 about the plan builder. -/

/-- Example schema with a single optional string attribute `x`. -/
def exC1Schema : SchemaBlockType :=
  SchemaBlockType.mk [("x", { type := .string, optional := true })] []

def exC1Prior : Value := Value.object [("x", Value.str "a")]

def exC1Proposed : Value := Value.object [("x", Value.str "b")]

/-- C1 (code bug): with prior `x = "a"` and planned `x = "b"` — both
known strings, not structurally equal — `AttrHasChange "x"` returns
`false`.  The implementation returns `eqV.True()` where `eqV` is the
equality comparison, i.e. it reports whether the two sides are EQUAL,
inverting its own documented contract ("returns true if the prior value
... is different than the planned new value"). -/
theorem C1_attrHasChange_inverted :
    ((newPlanBuilder exC1Schema (some exC1Prior) none (some exC1Proposed)).bind
        (fun st => st.AttrChange "x")) = some (Value.str "a", Value.str "b") ∧
    (Value.str "a").isKnown = true ∧
    (Value.str "b").isKnown = true ∧
    Value.str "a" ≠ Value.str "b" ∧
    ((newPlanBuilder exC1Schema (some exC1Prior) none (some exC1Proposed)).bind
        (fun st => st.AttrHasChange "x")) = some false := by
  refine ⟨?_, rfl, rfl, by simp, ?_⟩
  · simp [newPlanBuilder, mkPlanReader, newObjectBuilder, exC1Schema, exC1Prior,
      exC1Proposed, PlanBuilderState.AttrChange, ObjectBuilder.Attr, ObjectBuilder.schema,
      ObjectBuilder.attrs, Value.getAttr, Value.typeOf, CtyType.isObjectType,
      Value.isNull, Value.isKnown, ctyIsNull, List.lookup]
  · simp [newPlanBuilder, mkPlanReader, newObjectBuilder, exC1Schema, exC1Prior,
      exC1Proposed, PlanBuilderState.AttrHasChange, PlanBuilderState.AttrChange,
      ObjectBuilder.Attr, ObjectBuilder.schema, ObjectBuilder.attrs, Value.getAttr,
      Value.typeOf, CtyType.isObjectType, Value.isNull, Value.isKnown, ctyIsNull,
      List.lookup, Value.Equals, CtyType.hasDynamicTypes, CtyType.beq, Value.isTrueVal]

/-- C2 counterexample: when prior and proposed are both null, the code
classifies the plan as Delete, not Create, so "create whenever prior is
null" is false as stated. -/
theorem C2_counterexample :
    ((newPlanBuilder exC1Schema (some (Value.null (CtyType.object [("x", .string)]))) none
        (some (Value.null (CtyType.object [("x", .string)])))).map
      (fun st => st.action)) = some Action.delete ∧
    Action.delete ≠ Action.create := by
  refine ⟨?_, by decide⟩
  simp [newPlanBuilder, mkPlanReader, Value.isNull, ctyIsNull]

/-- C2 as amended: delete takes precedence.  The action is Delete
whenever proposed is null (or nil), Create when prior is null (or nil)
and proposed is not, and Update when both are non-null; the nested
`subBuilder` classifies identically from the nil-ness of the child
planned builder and prior reader. -/
theorem newPlanBuilder_action (schema : SchemaBlockType)
    (prior config proposed : Option Value) (st : PlanBuilderState)
    (h : newPlanBuilder schema prior config proposed = some st) :
    st.action = (if ctyIsNull proposed = true then Action.delete
      else if ctyIsNull prior = true then Action.create else Action.update) := by
  unfold newPlanBuilder at h
  rcases h1 : mkPlanReader prior with _ | pr <;> rw [h1] at h
  · simp at h
  · rcases h2 : mkPlanReader config with _ | cf <;> rw [h2] at h
    · simp at h
    · cases h
      rfl

theorem C2_action_classification (schema : SchemaBlockType)
    (prior config proposed : Option Value) (st : PlanBuilderState)
    (h : newPlanBuilder schema prior config proposed = some st) :
    (ctyIsNull proposed = true → st.action = Action.delete) ∧
    (ctyIsNull proposed = false → ctyIsNull prior = true → st.action = Action.create) ∧
    (ctyIsNull proposed = false → ctyIsNull prior = false → st.action = Action.update) ∧
    (∀ (priorR : Option Value) (plannedB : Option ObjectBuilder),
      (plannedB = none → subBuilderAction priorR plannedB = Action.delete) ∧
      (plannedB ≠ none → priorR = none → subBuilderAction priorR plannedB = Action.create) ∧
      (plannedB ≠ none → priorR ≠ none →
        subBuilderAction priorR plannedB = Action.update)) := by
  have ha := newPlanBuilder_action schema prior config proposed st h
  refine ⟨?_, ?_, ?_, ?_⟩
  · intro hp
    rw [ha, hp]
    simp
  · intro hp hpr
    rw [ha]
    simp [hp, hpr]
  · intro hp hpr
    rw [ha]
    simp [hp, hpr]
  · intro priorR plannedB
    refine ⟨?_, ?_, ?_⟩
    · intro hpl
      simp [subBuilderAction, hpl]
    · intro hpl hpr
      simp [subBuilderAction, hpl, hpr, Option.isNone_iff_eq_none]
    · intro hpl hpr
      simp [subBuilderAction, Option.isNone_iff_eq_none, hpl, hpr]

/-- The concrete plan state used by the C2 witness: a create plan. -/
def exC2State : PlanBuilderState :=
  ⟨Action.create, exC1Schema, none, none,
    some (newObjectBuilder exC1Schema (some exC1Proposed))⟩

theorem C2_witness :
    newPlanBuilder exC1Schema none none (some exC1Proposed) = some exC2State ∧
    exC2State.action = Action.create := by
  have h : newPlanBuilder exC1Schema none none (some exC1Proposed) = some exC2State := by
    simp [newPlanBuilder, mkPlanReader, exC2State, exC1Proposed, Value.isNull, ctyIsNull]
  exact ⟨h, (C2_action_classification exC1Schema none none (some exC1Proposed)
    exC2State h).2.1 rfl rfl⟩

/-- Example schema for C3: one optional+computed string attribute. -/
def exC3Schema : SchemaBlockType :=
  SchemaBlockType.mk [("a", { type := .string, optional := true, computed := true })] []

def exC3Prior : Value := Value.object [("a", Value.str "old")]

def exC3Config : Value := Value.object [("a", Value.null .string)]

def exC3Proposed : Value := Value.object [("a", Value.str "old")]

/-- C3 (code bug): attribute `a` is computed and its declared-config
value is null, yet `CanProvideAttrDefault "a"` returns false, because
the implementation tests the nullness of the attribute in the PLANNED
object (`b.Attr(name)`), not in the user configuration as its own
documentation states; here the proposed/planned value carries the prior
value "old". -/
theorem C3_canProvideAttrDefault_reads_planned :
    (({ type := .string, optional := true, computed := true } : SchemaAttribute).computed
        = true) ∧
    exC3Config.getAttr "a" = Value.null .string ∧
    ((newPlanBuilder exC3Schema (some exC3Prior) (some exC3Config) (some exC3Proposed)).bind
        (fun st => st.CanProvideAttrDefault "a")) = some false := by
  refine ⟨rfl, rfl, ?_⟩
  simp [newPlanBuilder, mkPlanReader, newObjectBuilder, exC3Schema, exC3Prior,
    exC3Config, exC3Proposed, PlanBuilderState.CanProvideAttrDefault,
    ObjectBuilder.Attr, ObjectBuilder.schema, ObjectBuilder.attrs, Value.getAttr,
    Value.typeOf, CtyType.isObjectType, Value.isNull, Value.isKnown, ctyIsNull,
    List.lookup]

/-- Example schema for C6: one optional list-of-string attribute. -/
def exC6Schema : SchemaBlockType :=
  SchemaBlockType.mk [("l", { type := .list .string, optional := true })] []

def exC6Prior : Value := Value.object [("l", Value.list .string [Value.unknown .string])]

def exC6Proposed : Value := Value.object [("l", Value.list .string [])]

/-- C6 (code bug): the prior value of `l` contains the unknown
placeholder, yet `AttrHasChange "l"` returns false: the two list values
have different lengths, so go-cty's `Equals` returns a KNOWN false, and
the inverted `return eqV.True()` (see C1) turns that definite difference
into "no change". -/
theorem C6_attrHasChange_not_conservative :
    ((newPlanBuilder exC6Schema (some exC6Prior) none (some exC6Proposed)).bind
        (fun st => st.AttrChange "l"))
      = some (Value.list .string [Value.unknown .string], Value.list .string []) ∧
    (Value.list .string [Value.unknown .string]).containsUnknown = true ∧
    ((newPlanBuilder exC6Schema (some exC6Prior) none (some exC6Proposed)).bind
        (fun st => st.AttrHasChange "l")) = some false := by
  refine ⟨?_, ?_, ?_⟩
  · simp [newPlanBuilder, mkPlanReader, newObjectBuilder, exC6Schema, exC6Prior,
      exC6Proposed, PlanBuilderState.AttrChange, ObjectBuilder.Attr, ObjectBuilder.schema,
      ObjectBuilder.attrs, Value.getAttr, Value.typeOf, CtyType.isObjectType,
      Value.isNull, Value.isKnown, ctyIsNull, List.lookup]
  · simp [containsUnknown_list, Value.containsUnknown]
  · simp [newPlanBuilder, mkPlanReader, newObjectBuilder, exC6Schema, exC6Prior,
      exC6Proposed, PlanBuilderState.AttrHasChange, PlanBuilderState.AttrChange,
      ObjectBuilder.Attr, ObjectBuilder.schema, ObjectBuilder.attrs, Value.getAttr,
      Value.typeOf, CtyType.isObjectType, Value.isNull, Value.isKnown, ctyIsNull,
      List.lookup, Value.Equals, equalsElems, CtyType.hasDynamicTypes, CtyType.beq,
      Value.isTrueVal]

/-! Claims C9 (ReplaceBlocksMap) and C10 (reader BlockCount). -/

/-- Nested content schema for the C9 example map block. -/
def exC9Content : SchemaBlockType :=
  SchemaBlockType.mk [("a", { type := .string, optional := true })] []

/-- C9 example schema: one map-nesting block type `m`. -/
def exC9Schema : SchemaBlockType :=
  SchemaBlockType.mk [] [("m", SchemaNestedBlockType.mk .map exC9Content 0 0)]

/-- C9 example initial value: the builder starts with one map block
keyed "k". -/
def exC9Initial : Value :=
  Value.object [("m", Value.map (CtyType.object [("a", .string)])
    [("k", Value.object [("a", Value.str "x")])])]

def exC9Builder : ObjectBuilder := newObjectBuilder exC9Schema (some exC9Initial)

/-- C9 (code bug): replacing the map blocks of `m` with an EMPTY
collection leaves the builder still holding its previous map block: the
empty-collection branch of `ReplaceBlocksMap` assigns to
`listBlocks[typeName]` instead of `mapBlocks[typeName]` (a copy-paste
slip from `ReplaceBlocksList`), so `BlockCount "m"` still returns 1
afterwards, not 0, and the stale block also survives into the frozen
object value. -/
theorem C9_replaceBlocksMap_empty_keeps_blocks :
    exC9Builder.BlockCount "m" = some 1 ∧
    ((exC9Builder.ReplaceBlocksMap "m" []).bind
      (fun b2 => b2.BlockCount "m")) = some 1 := by
  constructor
  · simp [exC9Builder, newObjectBuilder, exC9Schema, exC9Content, exC9Initial,
      ObjectBuilder.BlockCount, ObjectBuilder.schema, ObjectBuilder.mapBlocks,
      Value.getAttr, Value.entries, Value.isNull, Value.isKnown,
      SchemaNestedBlockType.nesting, SchemaNestedBlockType.content, List.lookup]
  · simp [exC9Builder, newObjectBuilder, exC9Schema, exC9Content, exC9Initial,
      ObjectBuilder.ReplaceBlocksMap, ObjectBuilder.BlockCount, ObjectBuilder.schema,
      ObjectBuilder.mapBlocks, ObjectBuilder.listBlocks, ObjectBuilder.singleBlocks,
      ObjectBuilder.attrs, assocSet, Value.getAttr, Value.entries, Value.isNull,
      Value.isKnown, SchemaNestedBlockType.nesting, SchemaNestedBlockType.content,
      List.lookup]

/-- Model of `objectReaderVal.BlockCount` (object_reader.go lines 89-105)
together with `blockVal` (lines 186-192): the block value is read from
the reader's object, single nesting counts null as 0 and anything else
as 1, and every other nesting mode counts null or unknown collections as
0 and otherwise takes the collection length.  `none` models the panic on
an undeclared block type and `LengthInt`'s panic on non-collections. -/
def readerBlockCount (schema : SchemaBlockType) (v : Value) (blockType : String) :
    Option Nat :=
  match schema.nestedBlockTypes.lookup blockType with
  | none => none
  | some blockS =>
      let obj := v.getAttr blockType
      match blockS.nesting with
      | .single => some (if obj.isNull then 0 else 1)
      | _ => if obj.isNull ∨ ¬ obj.isKnown then some 0 else obj.lengthInt

/-- C10: for every reader object and declared block type whose stored
value has a collection shape whenever it is known and non-null (as every
schema-conforming value does), `BlockCount` returns a count without
failing: for single nesting 0 when null and 1 otherwise, and for every
other nesting mode 0 when the collection is null or unknown and the
collection's length otherwise. -/
theorem C10_blockCount_total (schema : SchemaBlockType) (v : Value) (blockType : String)
    (blockS : SchemaNestedBlockType)
    (hdecl : schema.nestedBlockTypes.lookup blockType = some blockS)
    (hshape : blockS.nesting ≠ .single →
      (v.getAttr blockType).isNull = true ∨ (v.getAttr blockType).isKnown = false ∨
        ((v.getAttr blockType).lengthInt).isSome = true) :
    readerBlockCount schema v blockType
      = some (if blockS.nesting = .single then
                (if (v.getAttr blockType).isNull then 0 else 1)
              else if (v.getAttr blockType).isNull ∨ ¬ (v.getAttr blockType).isKnown
              then 0
              else ((v.getAttr blockType).lengthInt).getD 0) := by
  unfold readerBlockCount
  rw [hdecl]
  rcases hb : blockS.nesting with _ | _ | _ | _ | _
  all_goals simp only [hb]
  case single => simp
  all_goals {
    have hs := hshape (by rw [hb]; intro hc; cases hc)
    by_cases hn : (v.getAttr blockType).isNull = true
    · simp [hn]
    · by_cases hk : (v.getAttr blockType).isKnown = true
      · have hlen : ((v.getAttr blockType).lengthInt).isSome = true := by
          rcases hs with h | h | h
          · exact absurd h hn
          · rw [hk] at h; cases h
          · exact h
        obtain ⟨n, hn2⟩ := Option.isSome_iff_exists.mp hlen
        simp [hn, hk, hn2]
      · simp [hn, hk]
  }

/-- Witness for C10: a list-nesting block type holding two blocks. -/
theorem C10_witness :
    ((SchemaBlockType.mk [] [("b", SchemaNestedBlockType.mk .list exC9Content 0 0)]
        ).nestedBlockTypes.lookup "b")
      = some (SchemaNestedBlockType.mk .list exC9Content 0 0) ∧
    readerBlockCount
        (SchemaBlockType.mk [] [("b", SchemaNestedBlockType.mk .list exC9Content 0 0)])
        (Value.object [("b", Value.list (CtyType.object [("a", .string)])
          [Value.object [("a", Value.str "1")], Value.object [("a", Value.str "2")]])])
        "b"
      = some 2 := by
  have hdecl : ((SchemaBlockType.mk [] [("b", SchemaNestedBlockType.mk .list exC9Content 0 0)]
        ).nestedBlockTypes.lookup "b")
      = some (SchemaNestedBlockType.mk .list exC9Content 0 0) := by
    simp [SchemaBlockType.nestedBlockTypes, List.lookup]
  refine ⟨hdecl, ?_⟩
  rw [C10_blockCount_total _ _ _ _ hdecl ?side]
  case side =>
    intro hne
    right
    right
    rfl
  rfl

/-! Claim C8: the apply-phase dispatch of part_008. -/

/-- The operation callback chosen by `managedResourceType.applyChange`
(part_008 lines 197-267) together with the reader-visible value
arguments it receives. -/
inductive ApplyDispatch where
  | createFn (planned : Value)
  | deleteFn (prior : Value)
  | updateFn (prior planned : Value)

/-- Model of the value flow of `managedResourceType.applyChange`
(part_008 lines 197-267): every unknown placeholder in the planned value
is first converted to null (`cty.UnknownAsNull`), and then exactly one
of CreateFn/DeleteFn/UpdateFn is dispatched on the null-ness of prior
and of the converted planned value, receiving the arguments shown. -/
def applyChangeDispatch (prior planned : Value) : ApplyDispatch :=
  let planned := planned.unknownAsNull
  if prior.isNull then .createFn planned
  else if planned.isNull then .deleteFn prior
  else .updateFn prior planned

/-- The planned-value argument the dispatched callback observes, for the
operations that receive one (create and update; delete receives only
prior). -/
def ApplyDispatch.plannedArg : ApplyDispatch → Option Value
  | .createFn p => some p
  | .updateFn _ p => some p
  | .deleteFn _ => none

/-- C8: for every (prior, planned) pair, the planned value handed to the
create/update callback is exactly `unknownAsNull planned`, and it
contains no unknown placeholder anywhere — the callback only ever
observes known values or nulls. -/
theorem C8_apply_callbacks_never_see_unknown (prior planned : Value) :
    (∀ p, (applyChangeDispatch prior planned).plannedArg = some p →
      p = planned.unknownAsNull ∧ p.containsUnknown = false) := by
  intro p hp
  unfold applyChangeDispatch at hp
  by_cases h1 : prior.isNull = true
  · simp only [h1, if_true, ApplyDispatch.plannedArg] at hp
    cases hp
    exact ⟨rfl, unknownAsNull_containsUnknown planned⟩
  · by_cases h2 : planned.unknownAsNull.isNull = true
    · simp only [h1, h2, Bool.false_eq_true, if_false, if_true,
        ApplyDispatch.plannedArg] at hp
      cases hp
    · simp only [h1, h2, Bool.false_eq_true, if_false,
        ApplyDispatch.plannedArg] at hp
      cases hp
      exact ⟨rfl, unknownAsNull_containsUnknown planned⟩

/-- Witness for C8: a create dispatch whose planned value contains an
unknown both at an attribute and inside a list; the callback receives
the fully-nulled value. -/
theorem C8_witness :
    (applyChangeDispatch (Value.null (CtyType.object [("x", .string)]))
        (Value.object [("x", Value.unknown .string),
                       ("l", Value.list .string [Value.unknown .string])])).plannedArg
      = some (Value.object [("x", Value.null .string),
                            ("l", Value.list .string [Value.null .string])]) ∧
    (Value.object [("x", Value.null .string),
                   ("l", Value.list .string [Value.null .string])]).containsUnknown
      = false := by
  have heval : (Value.object [("x", Value.unknown .string),
      ("l", Value.list .string [Value.unknown .string])]).unknownAsNull
      = Value.object [("x", Value.null .string),
                      ("l", Value.list .string [Value.null .string])] := by
    simp [Value.unknownAsNull]
  have hd : (applyChangeDispatch (Value.null (CtyType.object [("x", .string)]))
      (Value.object [("x", Value.unknown .string),
                     ("l", Value.list .string [Value.unknown .string])])).plannedArg
      = some (Value.object [("x", Value.unknown .string),
          ("l", Value.list .string [Value.unknown .string])]).unknownAsNull := by
    simp [applyChangeDispatch, Value.isNull, ApplyDispatch.plannedArg]
  have h := C8_apply_callbacks_never_see_unknown
    (Value.null (CtyType.object [("x", .string)]))
    (Value.object [("x", Value.unknown .string),
                   ("l", Value.list .string [Value.unknown .string])])
    ((Value.object [("x", Value.unknown .string),
        ("l", Value.list .string [Value.unknown .string])]).unknownAsNull)
    hd
  refine ⟨?_, ?_⟩
  · rw [hd, heval]
  · rw [← heval]
    exact h.2

/-! Claim C7: validation and diagnostic paths (part_006 lines 209-341). -/

def CtyType.isDynamic : CtyType → Bool
  | .dynamic => true
  | _ => false

/-- Model of the external go-cty `convert.Convert` on the fragment this
development needs: conversion to the dynamic pseudo-type or to the
value's own type succeeds unchanged, and null/unknown values convert to
the null/unknown of the target type.  Coercions between distinct
concrete types (string-to-number and the like) are outside the model and
fail here; no verified claim depends on which coercions succeed. -/
def convertValue (v : Value) (ty : CtyType) : Option Value :=
  if ty.isDynamic then some v
  else if v.typeOf.beq ty then some v
  else match v with
    | .null _ => some (Value.null ty)
    | .unknown _ => some (Value.unknown ty)
    | _ => none

/-- Model of `Diagnostics.HasErrors` (diagnostics.go lines 152-159). -/
def Diagnostics.HasErrors (diags : Diagnostics) : Bool :=
  diags.any (fun d => match d.severity with | .error => true | _ => false)

def missingRequiredDiag : Diagnostic :=
  { severity := .error, summary := "Missing required argument",
    detail := "This argument is required.", path := [] }

/-- Modelled with a fixed detail string; the Go detail interpolates the
conversion error text. -/
def invalidValueDiag : Diagnostic :=
  { severity := .error, summary := "Invalid argument value",
    detail := "Incorrect value type.", path := [] }

def invalidBlockObjectDiag : Diagnostic :=
  { severity := .error, summary := "Invalid block object",
    detail := "An object value is required to represent this block.", path := [] }

/-- Modelled with a fixed detail string; the Go detail interpolates the
block type name and mode. -/
def unsupportedNestingDiag (name : String) : Diagnostic :=
  { severity := .error, summary := "Unsupported nested block mode",
    detail := "Unsupported nested block mode.", path := [PathStep.getAttr name] }

/-- Model of `SchemaAttribute.Validate` (part_006 lines 277-341): a
"missing required" diagnostic for null required values, a type
diagnostic when conversion fails; the custom validate function runs only
when no diagnostic was produced and the converted value is non-null and
known (a nil ValidateFn wraps to a no-op). -/
def SchemaAttribute.Validate (a : SchemaAttribute) (val : Value) : Diagnostics :=
  let diags0 : Diagnostics :=
    if a.required && val.isNull then [missingRequiredDiag] else []
  match convertValue val a.type with
  | none => diags0 ++ [invalidValueDiag]
  | some convVal =>
      if diags0.HasErrors then diags0
      else if convVal.isNull then diags0
      else if ¬ convVal.isKnown then diags0
      else match a.validateFn with
        | none => diags0
        | some f => diags0 ++ f convVal

/-- Element iterator pairs with their keys (go-cty `ElementIterator`):
lists and tuples yield number-typed positional keys, maps and objects
yield string keys, sets yield the element itself as its key.  Null and
unknown values (where the Go iterator panics) yield no pairs. -/
def Value.elementPairs : Value → List (Value × Value)
  | .list _ es => es.enum.map (fun p => (Value.number p.1, p.2))
  | .tuple es => es.enum.map (fun p => (Value.number p.1, p.2))
  | .map _ kvs => kvs.map (fun kv => (Value.str kv.1, kv.2))
  | .object kvs => kvs.map (fun kv => (Value.str kv.1, kv.2))
  | .set _ es => es.map (fun e => (e, e))
  | _ => []

mutual

/-- Model of `SchemaBlockType.Validate` (part_006 lines 209-270): a
non-object value yields the "invalid block object" diagnostic alone;
otherwise every attribute is validated under its attribute path and
every nested block type contributes `nestedBlockValidate`.  (The Go
loops iterate maps in unspecified order and append; the model fixes
declaration order, which no claim depends on.) -/
def SchemaBlockType.Validate : SchemaBlockType → Value → Diagnostics
  | .mk attrs blocks, val =>
      if ¬ val.typeOf.isObjectType then [invalidBlockObjectDiag]
      else
        (attrs.flatMap (fun p =>
          (p.2.Validate (val.getAttr p.1)).UnderPath [PathStep.getAttr p.1])) ++
        (blocks.attach.flatMap (fun p =>
          nestedBlockValidate p.1.1 p.1.2 (val.getAttr p.1.1)))
termination_by b _ => sizeOf b
decreasing_by
  simp_wf
  have h1 := sizeOf_snd_lt_of_mem p.2
  omega

/-- The diagnostics contributed by one nested block type in
`SchemaBlockType.Validate` (the per-block loop body, part_006 lines
235-267): single recurses under the block path when non-null; list and
map recurse per element under the block path extended with the element
key; set recurses per element under the block path itself (set elements
have no describable path); an invalid mode yields its own diagnostic at
the block path. -/
def nestedBlockValidate (name : String) (blockS : SchemaNestedBlockType) (av : Value) :
    Diagnostics :=
  match blockS with
  | .mk nesting content _ _ =>
      match nesting with
      | .single =>
          if ¬ av.isNull then (content.Validate av).UnderPath [PathStep.getAttr name]
          else []
      | .list =>
          av.elementPairs.flatMap (fun kv =>
            (content.Validate kv.2).UnderPath
              [PathStep.getAttr name, PathStep.index kv.1])
      | .map =>
          av.elementPairs.flatMap (fun kv =>
            (content.Validate kv.2).UnderPath
              [PathStep.getAttr name, PathStep.index kv.1])
      | .set =>
          av.elems.flatMap (fun ev =>
            (content.Validate ev).UnderPath [PathStep.getAttr name])
      | .invalid => [unsupportedNestingDiag name]
termination_by sizeOf blockS
decreasing_by
  all_goals simp_wf
  all_goals omega

end

/-- C7: every diagnostic produced while validating an element of a
set-nesting block is an element diagnostic re-based directly under the
block's own path step, with no element index or key step appended,
whereas list- and map-nesting blocks insert the element's index/key step
between the block path and each recursive diagnostic's path; and for
object values, `Validate` consists of the per-attribute diagnostics plus
exactly these per-block contributions. -/
theorem C7_set_nesting_diag_paths
    (name : String) (content : SchemaBlockType) (mx mn : Int) (av : Value) :
    (∀ d ∈ nestedBlockValidate name (SchemaNestedBlockType.mk .set content mx mn) av,
      ∃ ev ∈ av.elems, ∃ d0 ∈ content.Validate ev,
        d = { d0 with path := [PathStep.getAttr name] ++ d0.path }) ∧
    (∀ d ∈ nestedBlockValidate name (SchemaNestedBlockType.mk .list content mx mn) av,
      ∃ kv ∈ av.elementPairs, ∃ d0 ∈ content.Validate kv.2,
        d = { d0 with path := [PathStep.getAttr name, PathStep.index kv.1] ++ d0.path }) ∧
    (∀ d ∈ nestedBlockValidate name (SchemaNestedBlockType.mk .map content mx mn) av,
      ∃ kv ∈ av.elementPairs, ∃ d0 ∈ content.Validate kv.2,
        d = { d0 with path := [PathStep.getAttr name, PathStep.index kv.1] ++ d0.path }) ∧
    (∀ (attrs : List (String × SchemaAttribute))
       (blocks : List (String × SchemaNestedBlockType)) (val : Value),
       val.typeOf.isObjectType = true →
       (SchemaBlockType.mk attrs blocks).Validate val
         = (attrs.flatMap (fun p =>
              (p.2.Validate (val.getAttr p.1)).UnderPath [PathStep.getAttr p.1])) ++
           (blocks.attach.flatMap (fun p =>
              nestedBlockValidate p.1.1 p.1.2 (val.getAttr p.1.1)))) := by
  refine ⟨?_, ?_, ?_, ?_⟩
  · intro d hd
    simp only [nestedBlockValidate, List.mem_flatMap, Diagnostics.UnderPath,
      List.mem_map] at hd
    obtain ⟨ev, hev, d0, hd0, hback⟩ := hd
    exact ⟨ev, hev, d0, hd0, hback.symm⟩
  · intro d hd
    simp only [nestedBlockValidate, List.mem_flatMap, Diagnostics.UnderPath,
      List.mem_map] at hd
    obtain ⟨kv, hkv, d0, hd0, hback⟩ := hd
    exact ⟨kv, hkv, d0, hd0, hback.symm⟩
  · intro d hd
    simp only [nestedBlockValidate, List.mem_flatMap, Diagnostics.UnderPath,
      List.mem_map] at hd
    obtain ⟨kv, hkv, d0, hd0, hback⟩ := hd
    exact ⟨kv, hkv, d0, hd0, hback.symm⟩
  · intro attrs blocks val hobj
    simp only [SchemaBlockType.Validate, hobj]
    simp

/-- C7 witness content schema: one required string attribute `r`. -/
def exC7Content : SchemaBlockType :=
  SchemaBlockType.mk [("r", { type := .string, required := true })] []

/-- C7 witness set value: one element whose required `r` is null. -/
def exC7SetVal : Value :=
  Value.set (CtyType.object [("r", .string)]) [Value.object [("r", Value.null .string)]]

/-- Witness for C7: concretely, the single diagnostic of the set block
`s` sits at path `s.r` — block path plus the element's inner path, no
index step — and the instantiated theorem applies to it. -/
theorem C7_witness :
    (nestedBlockValidate "s" (SchemaNestedBlockType.mk .set exC7Content 0 0) exC7SetVal
      = [{ severity := .error, summary := "Missing required argument",
           detail := "This argument is required.",
           path := [PathStep.getAttr "s", PathStep.getAttr "r"] }]) ∧
    (∀ d ∈ nestedBlockValidate "s" (SchemaNestedBlockType.mk .set exC7Content 0 0) exC7SetVal,
      ∃ ev ∈ exC7SetVal.elems, ∃ d0 ∈ exC7Content.Validate ev,
        d = { d0 with path := [PathStep.getAttr "s"] ++ d0.path }) := by
  constructor
  · simp [nestedBlockValidate, exC7SetVal, exC7Content, SchemaBlockType.Validate,
      SchemaAttribute.Validate,
      convertValue, CtyType.isDynamic, CtyType.beq, Value.typeOf, CtyType.isObjectType,
      Value.getAttr, Value.isNull, Value.isKnown, Value.elems, Diagnostics.UnderPath,
      Diagnostics.HasErrors, missingRequiredDiag, List.lookup]
  · exact (C7_set_nesting_diag_paths "s" exC7Content 0 0 exC7SetVal).1

end TfSdk
